import Mathlib

/-!
Shallow embedding of the qri logbook subsystem (package logbook in the
repository source). Pure data is translated directly; Go pointer mutation of
logs nested in the book tree is flattened into pure tree updates; Go runtime
panics (out-of-range index or slice) are modelled by a distinguished result
value, kept separate from returned Go error values.

The oplog package (types oplog.Op, oplog.Log, oplog.Book and their methods)
is not part of the provided sources; its behaviour is modelled from the spec
where needed, and each such definition carries a doc comment saying so.
-/

namespace Qri

/-- Op type tags, mirroring oplog.OpTypeInit / OpTypeAmend / OpTypeRemove. -/
inductive OpType where
  | init
  | amend
  | remove
deriving DecidableEq, Repr

/-- Model constants from the logbook source: authorModel ... cronJobModel. -/
def authorModel : Nat := 0
def nameModel : Nat := 1
def branchModel : Nat := 2
def versionModel : Nat := 3
def publicationModel : Nat := 4
def aclModel : Nat := 5
def cronJobModel : Nat := 6

/-- DefaultBranchName from the logbook source. -/
def DefaultBranchName : String := "main"

/-- An oplog operation. Field-for-field translation of oplog.Op as used by the
logbook source (int64 fields become Int). -/
structure Op where
  type : OpType
  model : Nat
  ref : String
  prev : String
  relations : List String
  name : String
  authorID : String
  timestamp : Int
  size : Int
  note : String
deriving DecidableEq, Repr

instance : Inhabited Op :=
  ⟨⟨OpType.init, 0, "", "", [], "", "", 0, 0, ""⟩⟩

/-- An oplog log: an ordered list of ops, nested child logs, and an optional
signature. Signatures are modelled symbolically as the signing author's public
key paired with the list of ops that was signed (spec 4.4 abstracts the
cryptography behind a sign/verify capability). -/
inductive Log where
  | mk (ops : List Op) (logs : List Log) (sig : Option (String × List Op))

def Log.ops : Log → List Op
  | .mk os _ _ => os

def Log.logs : Log → List Log
  | .mk _ ls _ => ls

def Log.sig : Log → Option (String × List Op)
  | .mk _ _ s => s

/-- Modelled from the spec: model(log) = ops[0].model. -/
def Log.model (l : Log) : Nat := (l.ops.headD default).model

/-- Modelled from the spec: name(log) is the most recent name among ops of the
log's own model (rename via amend updates it). -/
def Log.name (l : Log) : String :=
  l.ops.foldl (fun acc o => if o.model == l.model && o.name != "" then o.name else acc) ""

/-- Modelled from the spec: id(log) is the content hash of the canonical
encoding of ops[0]. Content hashing is abstracted as a string encoding of the
first op; no theorem below relies on collision freeness. -/
def Op.encode (o : Op) : String :=
  String.intercalate "|"
    [toString (match o.type with | .init => 1 | .amend => 2 | .remove => 3),
     toString o.model, o.ref, o.prev, String.intercalate "," o.relations,
     o.name, o.authorID, toString o.timestamp, toString o.size, o.note]

def Log.id (l : Log) : String := Op.encode (l.ops.headD default)

/-- Modelled from the spec (4.2): InitLog constructs a log with a single op. -/
def initLog (op : Op) : Log := Log.mk [op] [] none

/-- Modelled from the spec (4.2): append adds an op at the tail and invalidates
the cached signature. The spec's InvalidTimestamp check is not modelled: every
call site in the provided source discards any result of Append, and no claim
concerns it. -/
def Log.appendOp (l : Log) (o : Op) : Log := Log.mk (l.ops ++ [o]) l.logs none

/-- Modelled from the spec (4.2/4.4): verify recomputes the signed data and
checks it against the given public key. In the symbolic signature model a log
verifies under pub iff its signature was produced by pub over exactly its
current ops. -/
def Log.verify (l : Log) (pub : String) : Bool :=
  match l.sig with
  | some (k, signed) => k == pub && signed == l.ops
  | none => false

/-- Go-style error values returned by logbook functions (each constructor
stands for one error value constructed in the source). -/
inductive Err where
  | noLogbook
  | notFound
  | logTooShort
  | usernameRequired
  | nameRequired
  | verifyFailed
  | unauthorized
deriving DecidableEq, Repr

/-- Result of running a piece of Go code: a value, a returned error, or a
runtime panic (out-of-range slice or index). A panic is not an error return. -/
inductive Res (α : Type) where
  | ok (a : α)
  | err (e : Err)
  | panic
deriving Repr, DecidableEq

def Res.bind : Res α → (α → Res β) → Res β
  | .ok a, f => f a
  | .err e, _ => .err e
  | .panic, _ => .panic

def Res.map (f : α → β) : Res α → Res β
  | .ok a => .ok (f a)
  | .err e => .err e
  | .panic => .panic

/-- A dataset reference dsref.Ref, fields as used by the logbook source. -/
structure Ref where
  username : String
  profileID : String
  name : String
  path : String
deriving DecidableEq, Repr

/-- Fields of dataset.Dataset consumed by the logbook source. -/
structure Commit where
  timestamp : Int
  title : String
deriving DecidableEq, Repr

structure Structure where
  length : Int
deriving DecidableEq, Repr

structure Dataset where
  peername : String
  profileID : String
  name : String
  path : String
  previousPath : String
  commit : Commit
  struct : Option Structure
deriving DecidableEq, Repr

/-- refFromDataset from the logbook source. -/
def refFromDataset (ds : Dataset) : Ref :=
  ⟨ds.peername, ds.profileID, ds.name, ds.path⟩

/-- DatasetInfo from the logbook source. -/
structure DatasetInfo where
  ref : Ref
  published : Bool
  timestamp : Int
  commitTitle : String
  size : Int
deriving DecidableEq, Repr

/-- infoFromOp from the logbook source. -/
def infoFromOp (ref : Ref) (op : Op) : DatasetInfo :=
  { ref := ⟨ref.username, ref.profileID, ref.name, op.ref⟩
    published := false
    timestamp := op.timestamp
    commitTitle := op.note
    size := op.size }

/-- The oplog book data serialized at rest: author name, author id, and the
top-level logs, one per known author. -/
structure Book where
  authorName : String
  authorID : String
  logs : List Log

/-- The logbook Book together with the filesystem capability's observable
state: the list of book snapshots handed to fs.Put, newest first.
Serialization and encryption (FlatbufferCipher, spec 4.4) are abstracted:
save records the book value itself. -/
structure BookState where
  book : Book
  persisted : List Book

/-- book.save from the logbook source: serialize, encrypt, and put through the
filesystem capability. The capability is modelled as always succeeding. -/
def save (st : BookState) : BookState := ⟨st.book, st.book :: st.persisted⟩

/-- Modelled from the spec (4.3): log_by_id returns the top-level log whose id
matches. -/
def Book.logByID (b : Book) (id : String) : Option Log :=
  b.logs.find? (fun l => l.id == id)

/-- Modelled from the spec (4.2): head_ref descends child logs following the
given names, failing when any step is unresolved. -/
def descend : Log → List String → Option Log
  | l, [] => some l
  | l, n :: rest =>
    match l.logs.find? (fun c => c.name == n) with
    | some c => descend c rest
    | none => none

/-- Modelled from the spec (4.2): the book-level head_ref resolves the first
name among top-level logs, then descends. -/
def Book.headRef (b : Book) (names : List String) : Option Log :=
  match names with
  | [] => none
  | n :: rest =>
    match b.logs.find? (fun l => l.name == n) with
    | some l => descend l rest
    | none => none

/-- BranchRef from the logbook source: requires username and name, then looks
up the path [username, name, main]. -/
def Book.branchRef (b : Book) (r : Ref) : Res Log :=
  if r.username == "" then .err .usernameRequired
  else if r.name == "" then .err .nameRequired
  else
    match b.headRef [r.username, r.name, DefaultBranchName] with
    | some l => .ok l
    | none => .err .notFound

/-- Marks the last n entries of the list with the given published flag,
mirroring the Go loop that writes refs[len-i].Published for i = 1..n. -/
def markPubLastN (refs : List DatasetInfo) (n : Nat) (b : Bool) : List DatasetInfo :=
  refs.take (refs.length - n) ++
    (refs.drop (refs.length - n)).map (fun i => { i with published := b })

/-- One iteration of the replay loop in Versions (logbook source), acting on
the accumulated entry list. Go slice/index panics are modelled as Res.panic:
refs[len-1] on an empty slice panics; refs[:len-size] panics when the bound is
negative (size > len). A negative size on the remove case would make Go's
upper bound exceed len, whose outcome depends on the slice's capacity; it is
modelled as a panic and no theorem below touches that case. -/
def versionsStep (ref : Ref) (refs : List DatasetInfo) (op : Op) : Res (List DatasetInfo) :=
  if op.model == versionModel then
    match op.type with
    | .init => .ok (refs ++ [infoFromOp ref op])
    | .amend =>
      if refs.isEmpty then .panic
      else .ok (refs.set (refs.length - 1) (infoFromOp ref op))
    | .remove =>
      if 0 ≤ op.size ∧ op.size ≤ refs.length then
        .ok (refs.take (refs.length - op.size.toNat))
      else .panic
  else if op.model == publicationModel then
    match op.type with
    | .init =>
      if op.size ≤ 0 then .ok refs
      else if op.size ≤ refs.length then .ok (markPubLastN refs op.size.toNat true)
      else .panic
    | .amend => .ok refs
    | .remove =>
      if op.size ≤ 0 then .ok refs
      else if op.size ≤ refs.length then .ok (markPubLastN refs op.size.toNat false)
      else .panic
  else .ok refs

/-- The replay loop of Versions: fold the ops in insertion order. -/
def replayOps (ref : Ref) : List Op → List DatasetInfo → Res (List DatasetInfo)
  | [], refs => .ok refs
  | op :: rest, refs =>
    match versionsStep ref refs op with
    | .ok refs' => replayOps ref rest refs'
    | .err e => .err e
    | .panic => .panic

/-- The pagination tail of Versions (logbook source), applied to the already
reversed entry list: clamp offset from above to the length, slice refs[offset:]
(Go panics when offset is negative), then refs[:limit] when limit < len (Go
panics when limit is negative). -/
def paginate (refs : List DatasetInfo) (offset limit : Int) : Res (List DatasetInfo) :=
  let off := if offset > (refs.length : Int) then (refs.length : Int) else offset
  if off < 0 then .panic
  else
    let refs := refs.drop off.toNat
    if limit < (refs.length : Int) then
      if limit < 0 then .panic else .ok (refs.take limit.toNat)
    else .ok refs

/-- Versions from the logbook source: resolve the branch, replay its ops from
an empty list, reverse newest-first (the source's swap loop is List.reverse),
then paginate. -/
def Book.versions (b : Book) (r : Ref) (offset limit : Int) : Res (List DatasetInfo) :=
  (b.branchRef r).bind fun l =>
    (replayOps r l.ops []).bind fun refs =>
      paginate refs.reverse offset limit

/-- Replaces the first element satisfying p using the partial update f;
none when no element matches or f fails. -/
def updateFirst (p : α → Bool) (f : α → Option α) : List α → Option (List α)
  | [] => none
  | x :: xs =>
    if p x then (f x).map (· :: xs)
    else (updateFirst p f xs).map (x :: ·)

/-- Applies f to the first element satisfying p, identity when none matches. -/
def mapFirst (p : α → Bool) (f : α → α) : List α → List α
  | [] => []
  | x :: xs => if p x then f x :: xs else x :: mapFirst p f xs

/-- Removes the first element satisfying p, identity when none matches. -/
def removeFirst (p : α → Bool) : List α → List α
  | [] => []
  | x :: xs => if p x then xs else x :: removeFirst p xs

/-- Applies f to the log found by descending the name path, mirroring in-place
mutation through the pointer Go's lookup returned; none when the path does not
resolve. -/
def updateAtPath : List String → Log → (Log → Log) → Option Log
  | [], l, f => some (f l)
  | n :: rest, l, f =>
    (updateFirst (fun c => c.name == n) (fun c => updateAtPath rest c f) l.logs).map
      (fun ls => Log.mk l.ops ls l.sig)

/-- Book-level counterpart of updateAtPath, resolving the first name among
top-level logs. -/
def Book.updateAt (b : Book) (path : List String) (f : Log → Log) : Option Book :=
  match path with
  | [] => none
  | n :: rest =>
    (updateFirst (fun l => l.name == n) (fun l => updateAtPath rest l f) b.logs).map
      (fun ls => { b with logs := ls })

/-- Modelled from the spec (4.3): remove_log removes the log identified by a
hierarchical name path. The call site in the source discards any result, so
the model is total: a path that does not resolve leaves the list unchanged. -/
def removeLogsAt : List String → List Log → List Log
  | [], ls => ls
  | [n], ls => removeFirst (fun l => l.name == n) ls
  | n :: rest, ls =>
    mapFirst (fun l => l.name == n)
      (fun l => Log.mk l.ops (removeLogsAt rest l.logs) l.sig) ls

/-- The dataset log built by initName (logbook source): a name-model init op,
with a single branch-model child log named main. Go calls NewTimestamp() once
per op; the model uses the single supplied clock value for both. The extra
branch ops are those the caller appends through the branch pointer initName
returns, before the book is saved. -/
def dsLogNew (name : String) (authorID : String) (now : Int) (branchOps : List Op) : Log :=
  Log.mk [⟨OpType.init, nameModel, "", "", [], name, authorID, now, 0, ""⟩]
    [Log.mk
      (⟨OpType.init, branchModel, "", "", [], DefaultBranchName, authorID, now, 0, ""⟩ :: branchOps)
      [] none]
    none

/-- initName (logbook source): append a fresh dataset log (with its main
branch) under the author log, which authorLog() resolves by the book's author
id; Go panics when that lookup fails. -/
def initNameWith (b : Book) (name : String) (now : Int) (branchOps : List Op) : Res Book :=
  match updateFirst (fun l => l.id == b.authorID)
      (fun al => some (Log.mk al.ops (al.logs ++ [dsLogNew name b.authorID now branchOps]) al.sig))
      b.logs with
  | some ls => .ok { b with logs := ls }
  | none => .panic

/-- The version init op built by appendVersionSave (logbook source). -/
def versionSaveOp (ds : Dataset) : Op :=
  { type := OpType.init
    model := versionModel
    ref := ds.path
    prev := ds.previousPath
    relations := []
    name := ""
    authorID := ""
    timestamp := ds.commit.timestamp
    size := match ds.struct with | some s => s.length | none => 0
    note := ds.commit.title }

/-- WriteNameInit (logbook source): nil receiver check, initName, save. -/
def writeNameInit (b? : Option BookState) (name : String) (now : Int) : Res BookState :=
  match b? with
  | none => .err .noLogbook
  | some st =>
    match initNameWith st.book name now [] with
    | .ok b' => .ok (save ⟨b', st.persisted⟩)
    | .err e => .err e
    | .panic => .panic

/-- WriteNameAmend (logbook source): nil receiver check, resolve the dataset
log at [username, name] via readDatasetLog, append a name-model amend op, and
return nil. The source does NOT call book.save here (its TODO marks the verb
unfinished). -/
def writeNameAmend (b? : Option BookState) (r : Ref) (newName : String) (now : Int) :
    Res BookState :=
  match b? with
  | none => .err .noLogbook
  | some st =>
    if r.username == "" then .err .usernameRequired
    else if r.name == "" then .err .nameRequired
    else
      match st.book.updateAt [r.username, r.name]
          (fun l => l.appendOp ⟨OpType.amend, nameModel, "", "", [], newName, "", now, 0, ""⟩) with
      | some b' => .ok ⟨b', st.persisted⟩
      | none => .err .notFound

/-- WriteVersionSave (logbook source): nil receiver check; resolve the branch;
on ErrNotFound auto-initialize via initName; append the version init op to the
branch; save. -/
def writeVersionSave (b? : Option BookState) (ds : Dataset) (now : Int) : Res BookState :=
  match b? with
  | none => .err .noLogbook
  | some st =>
    let r := refFromDataset ds
    match st.book.branchRef r with
    | .ok _ =>
      match st.book.updateAt [r.username, r.name, DefaultBranchName]
          (fun l => l.appendOp (versionSaveOp ds)) with
      | some b' => .ok (save ⟨b', st.persisted⟩)
      | none => .panic
    | .err .notFound =>
      match initNameWith st.book r.name now [versionSaveOp ds] with
      | .ok b' => .ok (save ⟨b', st.persisted⟩)
      | .err e => .err e
      | .panic => .panic
    | .err e => .err e
    | .panic => .panic

/-- Shared shape of the branch-append verbs (WriteVersionAmend, -Delete,
WritePublish, WriteUnpublish, WriteCronJobRan): resolve the branch, append the
op, save. BranchRef errors are returned unchanged. -/
def appendAtBranch (st : BookState) (r : Ref) (op : Op) : Res BookState :=
  if r.username == "" then .err .usernameRequired
  else if r.name == "" then .err .nameRequired
  else
    match st.book.updateAt [r.username, r.name, DefaultBranchName] (fun l => l.appendOp op) with
    | some b' => .ok (save ⟨b', st.persisted⟩)
    | none => .err .notFound

/-- WriteVersionAmend (logbook source). -/
def writeVersionAmend (b? : Option BookState) (ds : Dataset) : Res BookState :=
  match b? with
  | none => .err .noLogbook
  | some st =>
    appendAtBranch st (refFromDataset ds)
      { type := OpType.amend, model := versionModel, ref := ds.path, prev := ds.previousPath
        relations := [], name := "", authorID := "", timestamp := ds.commit.timestamp
        size := 0, note := ds.commit.title }

/-- WriteVersionDelete (logbook source): a version-model remove op whose size
is the revision count (the other fields are left unset, per the source TODO). -/
def writeVersionDelete (b? : Option BookState) (r : Ref) (revisions : Int) : Res BookState :=
  match b? with
  | none => .err .noLogbook
  | some st =>
    appendAtBranch st r
      ⟨OpType.remove, versionModel, "", "", [], "", "", 0, revisions, ""⟩

/-- WritePublish (logbook source). -/
def writePublish (b? : Option BookState) (r : Ref) (revisions : Int)
    (destinations : List String) : Res BookState :=
  match b? with
  | none => .err .noLogbook
  | some st =>
    appendAtBranch st r
      ⟨OpType.init, publicationModel, "", "", destinations, "", "", 0, revisions, ""⟩

/-- WriteUnpublish (logbook source). -/
def writeUnpublish (b? : Option BookState) (r : Ref) (revisions : Int)
    (destinations : List String) : Res BookState :=
  match b? with
  | none => .err .noLogbook
  | some st =>
    appendAtBranch st r
      ⟨OpType.remove, publicationModel, "", "", destinations, "", "", 0, revisions, ""⟩

/-- WriteCronJobRan (logbook source). -/
def writeCronJobRan (b? : Option BookState) (number : Int) (r : Ref) : Res BookState :=
  match b? with
  | none => .err .noLogbook
  | some st =>
    appendAtBranch st r
      ⟨OpType.init, cronJobModel, "", "", [], "", "", 0, number, ""⟩

/-- The oplog.Author interface as consumed by MergeLog and RemoveLog: an
author id and a public key. -/
structure Author where
  name : String
  authorID : String
  pubKey : String
deriving DecidableEq, Repr

/-- Modelled from the spec (4.6): merging a remote log into a local log of the
same id. Ops: when the remote is a strict, prefix-compatible extension its ops
replace the local ops, otherwise the local ops are kept. Children: a local
child whose id has a remote counterpart is merged recursively; remote children
with unknown ids are spliced in. The spec's reject outcomes (LogTooShort,
DivergentHistory) are modelled as keeping the local data, because the call
site in the provided source discards any result of Merge. -/
def Log.merge (l r : Log) : Log :=
  match l with
  | Log.mk ops logs sg =>
    Log.mk
      (if ops.length < r.ops.length ∧ r.ops.take ops.length = ops then r.ops else ops)
      ((logs.attach.map (fun c =>
          match r.logs.find? (fun rc => rc.id == c.1.id) with
          | some rc => Log.merge c.1 rc
          | none => c.1))
        ++ r.logs.filter (fun rc => !(logs.any (fun c => c.id == rc.id))))
      sg
termination_by sizeOf l
decreasing_by
  rename_i hc
  have hmem := c.2
  have := List.sizeOf_lt_of_mem hmem
  simp only [Log.mk.sizeOf_spec]
  omega

/-- MergeLog (logbook source): verify the incoming log's signature against the
sender's public key; on failure return the verification error (the book is
untouched). Then dispatch on log_by_id: an unknown id is appended as a new
top-level log, a known id is merged in place. Either way the book is saved. -/
def mergeLog (st : BookState) (sender : Author) (lg : Log) : Res BookState :=
  if lg.verify sender.pubKey = false then .err .verifyFailed
  else
    match st.book.logByID lg.id with
    | none => .ok (save ⟨{ st.book with logs := st.book.logs ++ [lg] }, st.persisted⟩)
    | some _ =>
      .ok (save ⟨{ st.book with
        logs := mapFirst (fun l => l.id == lg.id) (fun l => l.merge lg) st.book.logs },
        st.persisted⟩)

/-- dsRefToLogPath (logbook source): the two-component path username, name. -/
def dsRefToLogPath (r : Ref) : List String := [r.username, r.name]

/-- RemoveLog (logbook source): resolve the branch (BranchRef is inlined here
so the top-level log it descended from is in scope: Go walks Parent() pointers
from the branch, which in the tree model ends at exactly that top-level log).
If the root's id differs from the sender's author id, reject; otherwise remove
the log at path [username, name] and save. -/
def removeLog (st : BookState) (sender : Author) (r : Ref) : Res BookState :=
  if r.username == "" then .err .usernameRequired
  else if r.name == "" then .err .nameRequired
  else
    match st.book.logs.find? (fun l => l.name == r.username) with
    | none => .err .notFound
    | some root =>
      match descend root [r.name, DefaultBranchName] with
      | none => .err .notFound
      | some _ =>
        if root.id != sender.authorID then .err .unauthorized
        else
          .ok (save ⟨{ st.book with
            logs := removeLogsAt (dsRefToLogPath r) st.book.logs }, st.persisted⟩)

/-- ConstructDatasetLog (logbook source): when the branch already resolves,
refuse with ErrLogTooShort before touching anything; otherwise (any BranchRef
error) build the log via initName, append one version init op per history
entry in order, and save. -/
def constructDatasetLog (st : BookState) (r : Ref) (history : List Dataset) (now : Int) :
    Res BookState :=
  match st.book.branchRef r with
  | .ok _ => .err .logTooShort
  | .panic => .panic
  | .err _ =>
    match initNameWith st.book r.name now (history.map versionSaveOp) with
    | .ok b' => .ok (save ⟨b', st.persisted⟩)
    | .err e => .err e
    | .panic => .panic

/-! Concrete data used by witnesses and counterexamples: a book for author
alice holding one dataset weather with a main branch. -/

def exAuthorOp : Op := ⟨OpType.init, authorModel, "", "", [], "alice", "alice-key-hash", 1, 0, ""⟩

def exAuthorID : String := (initLog exAuthorOp).id

def exRef : Ref := ⟨"alice", "", "weather", ""⟩

def exNameOp : Op := ⟨OpType.init, nameModel, "", "", [], "weather", exAuthorID, 2, 0, ""⟩

def exBranchInit : Op := ⟨OpType.init, branchModel, "", "", [], DefaultBranchName, exAuthorID, 2, 0, ""⟩

def exBranch (ops : List Op) : Log := Log.mk (exBranchInit :: ops) [] none

def exAuthorLog (ops : List Op) : Log :=
  Log.mk [exAuthorOp] [Log.mk [exNameOp] [exBranch ops] none] none

def exBook (ops : List Op) : Book := ⟨"alice", exAuthorID, [exAuthorLog ops]⟩

def exState (ops : List Op) : BookState := ⟨exBook ops, []⟩

def exVInit (p : String) (t : Int) : Op :=
  ⟨OpType.init, versionModel, p, "", [], "", "", t, 42, "commit"⟩

def exVAmend : Op := ⟨OpType.amend, versionModel, "Qb", "", [], "", "", 200, 0, "amended"⟩

def exVRemove (n : Int) : Op := ⟨OpType.remove, versionModel, "", "", [], "", "", 0, n, ""⟩

def exPubInit (n : Int) : Op :=
  ⟨OpType.init, publicationModel, "", "", ["registry"], "", "", 0, n, ""⟩

def exPubRemove (n : Int) : Op :=
  ⟨OpType.remove, publicationModel, "", "", ["registry"], "", "", 0, n, ""⟩

def exCronOp : Op := ⟨OpType.init, cronJobModel, "", "", [], "", "", 0, 1, ""⟩

def exInfoQa : DatasetInfo := infoFromOp exRef (exVInit "Qa" 100)

def exInfoQb : DatasetInfo := infoFromOp exRef (exVInit "Qb" 200)

/-- A dataset whose peername is not the book author's username. -/
def exDsBob : Dataset := ⟨"bob", "", "weather", "Qa", "", ⟨100, "first"⟩, some ⟨42⟩⟩

/-- A dataset in the author's own namespace under a fresh name. -/
def exDsClimate : Dataset := ⟨"alice", "", "climate", "Qa", "", ⟨100, "first"⟩, some ⟨42⟩⟩

def exRemoteOp : Op := ⟨OpType.init, authorModel, "", "", [], "bob", "bob-key-hash", 1, 0, ""⟩

/-- A remote log correctly signed (in the symbolic signature model) by bob. -/
def exRemoteLog : Log := Log.mk [exRemoteOp] [] (some ("bob-pub", [exRemoteOp]))

def exBob : Author := ⟨"bob", (initLog exRemoteOp).id, "bob-pub"⟩

def exEve : Author := ⟨"eve", "eve-id", "eve-pub"⟩

/-- A local, unsigned copy of bob's log (same id as exRemoteLog). -/
def exLocalBob : Log := Log.mk [exRemoteOp] [] none

def exBookWithBob : Book := ⟨"alice", exAuthorID, [exAuthorLog [], exLocalBob]⟩

/-- The book produced by the auto-initialization path of WriteVersionSave,
for a book whose top-level logs decompose as pre ++ al :: post with al the
author log: al gains the fresh dataset log as a child. -/
def autoInitBook (bk : Book) (pre post : List Log) (al : Log) (ds : Dataset) (now : Int) : Book :=
  { bk with
    logs := pre ++
      Log.mk al.ops (al.logs ++ [dsLogNew ds.name bk.authorID now [versionSaveOp ds]]) al.sig
        :: post }

/-! Helper lemmas shared by the claim theorems. -/

theorem set_last_eq : ∀ (l : List α) (x : α), l ≠ [] →
    l.set (l.length - 1) x = l.dropLast ++ [x]
  | [], _, h => absurd rfl h
  | [_], _, _ => rfl
  | a :: b :: t, x, _ => by
    have ih := set_last_eq (b :: t) x (by simp)
    simpa using congrArg (a :: ·) ih

theorem find?_middle (p : α → Bool) (pre : List α) (a : α) (post : List α)
    (hpre : ∀ x ∈ pre, p x = false) (ha : p a = true) :
    (pre ++ a :: post).find? p = some a := by
  induction pre with
  | nil => simp [List.find?, ha]
  | cons y ys ih =>
    have hy := hpre y (by simp)
    simpa [List.find?, hy] using ih (fun x hx => hpre x (by simp [hx]))

theorem updateFirst_middle (p : α → Bool) (f : α → Option α) (pre : List α)
    (a a' : α) (post : List α)
    (hpre : ∀ x ∈ pre, p x = false) (ha : p a = true) (hf : f a = some a') :
    updateFirst p f (pre ++ a :: post) = some (pre ++ a' :: post) := by
  induction pre with
  | nil => simp [updateFirst, ha, hf]
  | cons y ys ih =>
    have hy := hpre y (by simp)
    simpa [updateFirst, hy] using ih (fun x hx => hpre x (by simp [hx]))

theorem markPubLastN_zero (refs : List DatasetInfo) (b : Bool) :
    markPubLastN refs 0 b = refs := by
  simp [markPubLastN]

theorem name_mk (ops : List Op) (ls ls' : List Log) (s s' : Option (String × List Op)) :
    (Log.mk ops ls s).name = (Log.mk ops ls' s').name := rfl

theorem descend_nil (l : Log) : descend l [] = some l := rfl

theorem descend_cons (l : Log) (n : String) (rest : List String) :
    descend l (n :: rest) =
      match l.logs.find? (fun c => c.name == n) with
      | some c => descend c rest
      | none => none := rfl

theorem dsLogNew_name (n aid : String) (now : Int) (ops : List Op) (h : n ≠ "") :
    (dsLogNew n aid now ops).name = n := by
  simp [dsLogNew, Log.name, Log.model, Log.ops, h]

theorem versionsStep_not_err (r : Ref) (acc : List DatasetInfo) (op : Op) (e : Err) :
    versionsStep r acc op ≠ .err e := by
  unfold versionsStep
  repeat' split
  all_goals simp

theorem replayOps_not_err (r : Ref) : ∀ (ops : List Op) (acc : List DatasetInfo),
    replayOps r ops acc = .panic ∨ ∃ st, replayOps r ops acc = .ok st
  | [], acc => .inr ⟨acc, rfl⟩
  | op :: rest, acc => by
    unfold replayOps
    rcases hstep : versionsStep r acc op with a | e | _
    · exact replayOps_not_err r rest a
    · exact absurd hstep (versionsStep_not_err r acc op e)
    · exact .inl rfl

theorem paginate_nonneg (refs : List DatasetInfo) (off lim : Int)
    (h1 : 0 ≤ off) (h2 : 0 ≤ lim) :
    paginate refs off lim = .ok ((refs.drop (min off.toNat refs.length)).take lim.toNat) := by
  have hcast : ((refs.length : Int)).toNat = refs.length := by omega
  simp only [paginate]
  by_cases hc : off > (refs.length : Int)
  · have hmin : min off.toNat refs.length = refs.length := by omega
    rw [if_pos hc, if_neg (by omega), hmin, hcast, List.drop_length]
    rw [if_neg (by simp; omega)]
    simp
  · have hmin : min off.toNat refs.length = off.toNat := by omega
    have hlen := List.length_drop off.toNat refs
    rw [if_neg hc, if_neg (by omega), hmin]
    by_cases hl : lim < ((refs.drop off.toNat).length : Int)
    · rw [if_pos hl, if_neg (by omega)]
    · rw [if_neg hl, List.take_of_length_le (by omega)]

theorem paginate_neg (refs : List DatasetInfo) (off lim : Int)
    (h : off < 0 ∨ lim < 0) : paginate refs off lim = .panic := by
  have hcast : ((refs.length : Int)).toNat = refs.length := by omega
  simp only [paginate]
  rcases h with h | h
  · have hin : ¬ (off > (refs.length : Int)) := by omega
    rw [if_neg hin, if_pos (show off < 0 from h)]
  · by_cases hz : (if off > (refs.length : Int) then (refs.length : Int) else off) < 0
    · rw [if_pos hz]
    · rw [if_neg hz]
      rw [if_pos (by
        refine lt_of_lt_of_le h ?_
        exact Int.natCast_nonneg _), if_pos h]

/-! Claim theorems. -/

/-- C1: versions derives its entry list by replaying the branch's ops in
insertion order: version/init appends a new DatasetInfo built from the op,
version/amend replaces the last entry, version/remove with size n removes the
last n entries, publication/init with size n sets published on the last n
entries, publication/remove clears it on the last n entries, and an op of any
other model leaves the list unchanged. -/
theorem versions_replay_semantics
    (b : Book) (r : Ref) (off lim : Int) (l : Log) (st : List DatasetInfo) (op : Op) :
    (b.branchRef r = .ok l →
      b.versions r off lim =
        (replayOps r l.ops []).bind fun refs => paginate refs.reverse off lim)
    ∧ (op.model = versionModel → op.type = OpType.init →
        versionsStep r st op = .ok (st ++ [infoFromOp r op]))
    ∧ (op.model = versionModel → op.type = OpType.amend → st ≠ [] →
        versionsStep r st op = .ok (st.dropLast ++ [infoFromOp r op]))
    ∧ (op.model = versionModel → op.type = OpType.remove →
        0 ≤ op.size → op.size ≤ (st.length : Int) →
        versionsStep r st op = .ok (st.take (st.length - op.size.toNat)))
    ∧ (op.model = publicationModel → op.type = OpType.init →
        0 ≤ op.size → op.size ≤ (st.length : Int) →
        versionsStep r st op = .ok (markPubLastN st op.size.toNat true))
    ∧ (op.model = publicationModel → op.type = OpType.remove →
        0 ≤ op.size → op.size ≤ (st.length : Int) →
        versionsStep r st op = .ok (markPubLastN st op.size.toNat false))
    ∧ (op.model ≠ versionModel → op.model ≠ publicationModel →
        versionsStep r st op = .ok st) := by
  refine ⟨?_, ?_, ?_, ?_, ?_, ?_, ?_⟩
  · intro h
    simp [Book.versions, h, Res.bind]
  · intro h1 h2
    simp [versionsStep, h1, h2]
  · intro h1 h2 h3
    have hne : st.isEmpty = false := by simpa [List.isEmpty_iff] using h3
    simp [versionsStep, h1, h2, hne, set_last_eq st _ h3]
  · intro h1 h2 h3 h4
    simp [versionsStep, h1, h2, h3, h4]
  · intro h1 h2 h3 h4
    by_cases hz : op.size ≤ 0
    · have hn : op.size.toNat = 0 := by omega
      simp [versionsStep, versionModel, publicationModel, h1, h2, hz, hn, markPubLastN_zero]
    · simp [versionsStep, versionModel, publicationModel, h1, h2, hz, h4]
  · intro h1 h2 h3 h4
    by_cases hz : op.size ≤ 0
    · have hn : op.size.toNat = 0 := by omega
      simp [versionsStep, versionModel, publicationModel, h1, h2, hz, hn, markPubLastN_zero]
    · simp [versionsStep, versionModel, publicationModel, h1, h2, hz, h4]
  · intro h1 h2
    simp [versionsStep, h1, h2]

/-- C1 witness: the replay equations instantiated on concrete inputs. -/
theorem versions_replay_semantics_witness :
    ((exBook [exVInit "Qa" 100]).versions exRef 0 10 =
      (replayOps exRef (exBranch [exVInit "Qa" 100]).ops []).bind fun refs =>
        paginate refs.reverse 0 10)
    ∧ versionsStep exRef [] (exVInit "Qa" 100) = .ok ([] ++ [infoFromOp exRef (exVInit "Qa" 100)])
    ∧ versionsStep exRef [exInfoQa] exVAmend =
        .ok ([exInfoQa].dropLast ++ [infoFromOp exRef exVAmend])
    ∧ versionsStep exRef [exInfoQa] (exVRemove 1) =
        .ok ([exInfoQa].take ([exInfoQa].length - (exVRemove 1).size.toNat))
    ∧ versionsStep exRef [exInfoQa] (exPubInit 1) =
        .ok (markPubLastN [exInfoQa] (exPubInit 1).size.toNat true)
    ∧ versionsStep exRef [exInfoQa] (exPubRemove 1) =
        .ok (markPubLastN [exInfoQa] (exPubRemove 1).size.toNat false)
    ∧ versionsStep exRef [exInfoQa] exCronOp = .ok [exInfoQa] :=
  ⟨(versions_replay_semantics (exBook [exVInit "Qa" 100]) exRef 0 10
      (exBranch [exVInit "Qa" 100]) [] (exVInit "Qa" 100)).1 rfl,
   (versions_replay_semantics (exBook []) exRef 0 10 (exBranch []) []
      (exVInit "Qa" 100)).2.1 rfl rfl,
   (versions_replay_semantics (exBook []) exRef 0 10 (exBranch []) [exInfoQa]
      exVAmend).2.2.1 rfl rfl (by decide),
   (versions_replay_semantics (exBook []) exRef 0 10 (exBranch []) [exInfoQa]
      (exVRemove 1)).2.2.2.1 rfl rfl (by decide) (by decide),
   (versions_replay_semantics (exBook []) exRef 0 10 (exBranch []) [exInfoQa]
      (exPubInit 1)).2.2.2.2.1 rfl rfl (by decide) (by decide),
   (versions_replay_semantics (exBook []) exRef 0 10 (exBranch []) [exInfoQa]
      (exPubRemove 1)).2.2.2.2.2.1 rfl rfl (by decide) (by decide),
   (versions_replay_semantics (exBook []) exRef 0 10 (exBranch []) [exInfoQa]
      exCronOp).2.2.2.2.2.2 (by decide) (by decide)⟩

/-- C3 counterexample: on a branch whose ops are malformed (a version/remove
whose size exceeds the current entry count, or a version/amend before any
init) versions crashes with a runtime panic; it does not return any error
value, so in particular no CorruptLog error reaches the caller. -/
theorem versions_corrupt_cex :
    (exBook [exVRemove 1]).versions exRef 0 10 = Res.panic
    ∧ (exBook [exVAmend]).versions exRef 0 10 = Res.panic :=
  ⟨rfl, rfl⟩

/-- C3 amended: a malformed op sequence (version/remove whose size exceeds the
current entry count, or version/amend before any init) makes the replay panic,
and a panicking replay makes versions panic; no error value is returned. -/
theorem versions_corrupt_panics
    (b : Book) (r : Ref) (off lim : Int) (l : Log) (st : List DatasetInfo) (op : Op) :
    (b.branchRef r = .ok l → replayOps r l.ops [] = .panic →
      b.versions r off lim = Res.panic)
    ∧ (op.model = versionModel → op.type = OpType.amend →
        versionsStep r [] op = Res.panic)
    ∧ (op.model = versionModel → op.type = OpType.remove →
        (st.length : Int) < op.size → versionsStep r st op = Res.panic) := by
  refine ⟨?_, ?_, ?_⟩
  · intro h1 h2
    simp [Book.versions, h1, h2, Res.bind]
  · intro h1 h2
    simp [versionsStep, h1, h2]
  · intro h1 h2 h3
    simp only [versionsStep, h1, h2]
    rw [if_pos (by simp [versionModel]), if_neg (by rintro ⟨h4, h5⟩; omega)]

/-- C3 witness for the amended statement. -/
theorem versions_corrupt_panics_witness :
    (exBook [exVRemove 1]).versions exRef 3 7 = Res.panic
    ∧ versionsStep exRef [] exVAmend = Res.panic
    ∧ versionsStep exRef [exInfoQa] (exVRemove 2) = Res.panic :=
  ⟨(versions_corrupt_panics (exBook [exVRemove 1]) exRef 3 7
      (exBranch [exVRemove 1]) [] exVAmend).1 rfl rfl,
   (versions_corrupt_panics (exBook []) exRef 0 0 (exBranch []) [] exVAmend).2.1 rfl rfl,
   (versions_corrupt_panics (exBook []) exRef 0 0 (exBranch []) [exInfoQa]
      (exVRemove 2)).2.2 rfl rfl (by decide)⟩

/-- C4 counterexample: versions does not reject negative pagination inputs
with an error; a negative offset or negative limit drives an out-of-range
slice, i.e. a runtime panic. -/
theorem versions_negative_cex :
    (exBook [exVInit "Qa" 100]).versions exRef (-1) 10 = Res.panic
    ∧ (exBook [exVInit "Qa" 100]).versions exRef 0 (-1) = Res.panic :=
  ⟨rfl, rfl⟩

/-- C4 amended: whenever the branch resolves, a negative offset or a negative
limit makes versions panic through an out-of-range slice; no error value is
returned for negative pagination inputs. -/
theorem versions_negative_panics (b : Book) (r : Ref) (off lim : Int) (l : Log)
    (hb : b.branchRef r = .ok l) (hneg : off < 0 ∨ lim < 0) :
    b.versions r off lim = Res.panic := by
  simp only [Book.versions, hb, Res.bind]
  rcases replayOps_not_err r l.ops [] with h | ⟨st, h⟩
  · rw [h]
  · rw [h]
    exact paginate_neg _ _ _ hneg

/-- C4 witness for the amended statement. -/
theorem versions_negative_panics_witness :
    (exBook [exVInit "Qa" 100]).versions exRef (-2) 5 = Res.panic :=
  versions_negative_panics (exBook [exVInit "Qa" 100]) exRef (-2) 5
    (exBranch [exVInit "Qa" 100]) rfl (by decide)

/-- C5: for non-negative offset and limit, versions returns the reverse of the
replayed list (newest first) with the offset clamped to the list length and at
most limit entries; offset equal to the length yields the empty list. -/
theorem versions_pagination_bounds (b : Book) (r : Ref) (off lim : Int) (l : Log)
    (st : List DatasetInfo)
    (hb : b.branchRef r = .ok l) (hrep : replayOps r l.ops [] = .ok st)
    (hoff : 0 ≤ off) (hlim : 0 ≤ lim) :
    b.versions r off lim = .ok ((st.reverse.drop (min off.toNat st.length)).take lim.toNat)
    ∧ ((st.reverse.drop (min off.toNat st.length)).take lim.toNat).length ≤ lim.toNat
    ∧ (off = (st.length : Int) →
        (st.reverse.drop (min off.toNat st.length)).take lim.toNat = []) := by
  have hrev : st.reverse.length = st.length := List.length_reverse st
  refine ⟨?_, ?_, ?_⟩
  · simp only [Book.versions, hb, Res.bind, hrep]
    rw [paginate_nonneg _ _ _ hoff hlim, hrev]
  · simp only [List.length_take]
    omega
  · intro h
    have hm : min off.toNat st.length = st.length := by omega
    rw [hm, ← hrev, List.drop_length, List.take_nil]

/-- C5 witness: two saved versions, offset 1, limit 5; and offset = length
yields the empty list. -/
theorem versions_pagination_bounds_witness :
    ((exBook [exVInit "Qa" 100, exVInit "Qb" 200]).versions exRef 1 5 =
      .ok ((([exInfoQa, exInfoQb].reverse.drop
        (min (1 : Int).toNat [exInfoQa, exInfoQb].length)).take (5 : Int).toNat))
    ∧ (([exInfoQa, exInfoQb].reverse.drop
        (min (1 : Int).toNat [exInfoQa, exInfoQb].length)).take (5 : Int).toNat).length
        ≤ (5 : Int).toNat
    ∧ ([exInfoQa, exInfoQb].reverse.drop
        (min (2 : Int).toNat [exInfoQa, exInfoQb].length)).take (5 : Int).toNat = []) :=
  ⟨(versions_pagination_bounds (exBook [exVInit "Qa" 100, exVInit "Qb" 200]) exRef 1 5
      (exBranch [exVInit "Qa" 100, exVInit "Qb" 200]) [exInfoQa, exInfoQb]
      rfl rfl (by decide) (by decide)).1,
   (versions_pagination_bounds (exBook [exVInit "Qa" 100, exVInit "Qb" 200]) exRef 1 5
      (exBranch [exVInit "Qa" 100, exVInit "Qb" 200]) [exInfoQa, exInfoQb]
      rfl rfl (by decide) (by decide)).2.1,
   (versions_pagination_bounds (exBook [exVInit "Qa" 100, exVInit "Qb" 200]) exRef 2 5
      (exBranch [exVInit "Qa" 100, exVInit "Qb" 200]) [exInfoQa, exInfoQb]
      rfl rfl (by decide) (by decide)).2.2 rfl⟩

/-- C2 (code bug): WriteNameAmend returns success without handing anything to
the filesystem capability, although it did mutate the book (the dataset log
gained the amend op and now answers to the new name), while WriteVersionDelete persists a
snapshot before returning success. The failing input is a book for author
alice holding dataset weather; the verb renames it to climate. -/
theorem writeNameAmend_skips_save :
    Res.map (fun st => st.persisted.length)
        (writeNameAmend (some (exState [])) exRef "climate" 7) = .ok 0
    ∧ Res.map (fun st => (st.book.headRef ["alice", "climate"]).map (fun l => l.ops.length))
        (writeNameAmend (some (exState [])) exRef "climate" 7) = .ok (some 2)
    ∧ Res.map (fun st => st.persisted.length)
        (writeVersionDelete (some (exState [])) exRef 1) = .ok 1 :=
  ⟨rfl, rfl, rfl⟩

/-- C6: MergeLog verifies the incoming log's signature against the sender's
public key before any mutation: a failed verification returns the verification
error with no new book state and nothing persisted, while after a successful
verification the log is appended as a new top-level log when its id is unknown
and is merged into the existing log of that id otherwise — in both cases the
updated book is persisted. -/
theorem mergeLog_verify_gate (st : BookState) (sender : Author) (lg : Log) :
    (lg.verify sender.pubKey = false → mergeLog st sender lg = .err .verifyFailed)
    ∧ (lg.verify sender.pubKey = true → st.book.logByID lg.id = none →
        mergeLog st sender lg =
          .ok ⟨{ st.book with logs := st.book.logs ++ [lg] },
            { st.book with logs := st.book.logs ++ [lg] } :: st.persisted⟩)
    ∧ (lg.verify sender.pubKey = true → ∀ found, st.book.logByID lg.id = some found →
        mergeLog st sender lg =
          .ok ⟨{ st.book with
              logs := mapFirst (fun l => l.id == lg.id) (fun l => l.merge lg) st.book.logs },
            { st.book with
              logs := mapFirst (fun l => l.id == lg.id) (fun l => l.merge lg) st.book.logs }
              :: st.persisted⟩) := by
  refine ⟨?_, ?_, ?_⟩
  · intro h
    simp [mergeLog, h]
  · intro h1 h2
    simp [mergeLog, h1, h2, save]
  · intro h1 found h2
    simp [mergeLog, h1, h2, save]

/-- C6 witness: a bad signature is rejected; a good signature on an unknown id
appends; a good signature on a known id merges. -/
theorem mergeLog_verify_gate_witness :
    mergeLog (exState []) exEve exRemoteLog = .err .verifyFailed
    ∧ mergeLog (exState []) exBob exRemoteLog =
        .ok ⟨{ (exState []).book with logs := (exState []).book.logs ++ [exRemoteLog] },
          { (exState []).book with logs := (exState []).book.logs ++ [exRemoteLog] } :: []⟩
    ∧ mergeLog ⟨exBookWithBob, []⟩ exBob exRemoteLog =
        .ok ⟨{ exBookWithBob with
            logs := mapFirst (fun l => l.id == exRemoteLog.id)
              (fun l => l.merge exRemoteLog) exBookWithBob.logs },
          { exBookWithBob with
            logs := mapFirst (fun l => l.id == exRemoteLog.id)
              (fun l => l.merge exRemoteLog) exBookWithBob.logs } :: []⟩ :=
  ⟨(mergeLog_verify_gate (exState []) exEve exRemoteLog).1 rfl,
   (mergeLog_verify_gate (exState []) exBob exRemoteLog).2.1 rfl rfl,
   (mergeLog_verify_gate ⟨exBookWithBob, []⟩ exBob exRemoteLog).2.2 rfl exLocalBob rfl⟩

/-- C7: RemoveLog succeeds only for the owner: whenever the sender's author id
differs from the id of the root (top-level, parentless) log containing the
target branch, it returns the unauthorized error, removing and persisting
nothing (the error return precedes any mutation). -/
theorem removeLog_owner_only (st : BookState) (sender : Author) (r : Ref) (root br : Log)
    (hu : r.username ≠ "") (hn : r.name ≠ "")
    (hfind : st.book.logs.find? (fun l => l.name == r.username) = some root)
    (hdesc : descend root [r.name, DefaultBranchName] = some br)
    (hid : root.id ≠ sender.authorID) :
    removeLog st sender r = .err .unauthorized := by
  have hbu : (r.username == "") = false := beq_eq_false_iff_ne.mpr hu
  have hbn : (r.name == "") = false := beq_eq_false_iff_ne.mpr hn
  have hbid : (root.id != sender.authorID) = true := bne_iff_ne.mpr hid
  simp [removeLog, hbu, hbn, hfind, hdesc, hbid]

/-- C7 witness: eve cannot remove alice's dataset log. -/
theorem removeLog_owner_only_witness :
    removeLog (exState []) exEve exRef = .err .unauthorized :=
  removeLog_owner_only (exState []) exEve exRef (exAuthorLog []) (exBranch [])
    (by decide) (by decide) rfl rfl (by decide)

/-- C9: ConstructDatasetLog refuses to overwrite: when the ref's branch log
already resolves, it returns ErrLogTooShort before creating, appending or
persisting anything (the error return precedes any mutation). -/
theorem constructDatasetLog_refuses_existing (st : BookState) (r : Ref)
    (history : List Dataset) (now : Int) (l : Log)
    (h : st.book.branchRef r = .ok l) :
    constructDatasetLog st r history now = .err .logTooShort := by
  simp [constructDatasetLog, h]

/-- C9 witness: the weather branch already exists, so the construct call is
refused. -/
theorem constructDatasetLog_refuses_existing_witness :
    constructDatasetLog (exState []) exRef [exDsClimate] 9 = .err .logTooShort :=
  constructDatasetLog_refuses_existing (exState []) exRef [exDsClimate] 9
    (exBranch []) rfl

/-- C8 counterexample: for a dataset whose peername (bob) is not the book
author's username (alice), WriteVersionSave succeeds and persists — the
auto-initialized hierarchy goes under the author log — but the branch lookup
for the same ref still fails afterwards, refuting the claim that the lookup
subsequently succeeds for every such ref. -/
theorem writeVersionSave_foreign_cex :
    Res.map (fun st => (st.book.branchRef (refFromDataset exDsBob), st.persisted.length))
        (writeVersionSave (some (exState [])) exDsBob 5)
      = .ok (Res.err Err.notFound, 1) := rfl

/-- C8 amended: when WriteVersionSave is called for a ref whose branch does not
exist AND the ref's username is the name of the author log (the author's own
namespace, the only case the source supports per its TODO) AND the author log
has no child log with the dataset's name, the hierarchy is auto-initialized: a
name-model log with a main branch-model child carrying the version init op is
appended under the author log, the book is saved, and the branch lookup for
the same ref subsequently succeeds. -/
theorem writeVersionSave_autoinit
    (pre post : List Log) (al : Log) (bk : Book) (persisted : List Book)
    (ds : Dataset) (now : Int)
    (hlogs : bk.logs = pre ++ al :: post)
    (hpreid : ∀ x ∈ pre, ((x.id == bk.authorID) = false))
    (halid : (al.id == bk.authorID) = true)
    (hprename : ∀ x ∈ pre, ((x.name == ds.peername) = false))
    (halname : (al.name == ds.peername) = true)
    (hnochild : ∀ c ∈ al.logs, ((c.name == ds.name) = false))
    (hu : ds.peername ≠ "") (hn : ds.name ≠ "") :
    writeVersionSave (some ⟨bk, persisted⟩) ds now =
      .ok ⟨autoInitBook bk pre post al ds now, autoInitBook bk pre post al ds now :: persisted⟩
    ∧ (autoInitBook bk pre post al ds now).branchRef (refFromDataset ds) =
      .ok (Log.mk [⟨OpType.init, branchModel, "", "", [], DefaultBranchName, bk.authorID, now, 0, ""⟩,
        versionSaveOp ds] [] none) := by
  have hbu : (ds.peername == "") = false := beq_eq_false_iff_ne.mpr hu
  have hbn : (ds.name == "") = false := beq_eq_false_iff_ne.mpr hn
  have hfind1 : (pre ++ al :: post).find? (fun l => l.name == ds.peername) = some al :=
    find?_middle _ pre al post hprename halname
  have hnone : al.logs.find? (fun c => c.name == ds.name) = none :=
    List.find?_eq_none.mpr (fun c hc => by simp [hnochild c hc])
  have hbr : bk.branchRef (refFromDataset ds) = .err .notFound := by
    simp [Book.branchRef, refFromDataset, hbu, hbn, Book.headRef, hlogs, hfind1, descend, hnone]
  have hupd := updateFirst_middle (fun l => l.id == bk.authorID)
    (fun a => some (Log.mk a.ops
      (a.logs ++ [dsLogNew (refFromDataset ds).name bk.authorID now [versionSaveOp ds]]) a.sig))
    pre al
    (Log.mk al.ops
      (al.logs ++ [dsLogNew (refFromDataset ds).name bk.authorID now [versionSaveOp ds]]) al.sig)
    post hpreid halid rfl
  have hinit : initNameWith bk (refFromDataset ds).name now [versionSaveOp ds] =
      .ok (autoInitBook bk pre post al ds now) := by
    simp only [initNameWith, hlogs, hupd]
    rfl
  have hal'name : (Log.mk al.ops
      (al.logs ++ [dsLogNew ds.name bk.authorID now [versionSaveOp ds]]) al.sig).name = al.name := by
    cases al
    rfl
  constructor
  · simp only [writeVersionSave, hbr, hinit]
    rfl
  · have hfind2 : (pre ++ Log.mk al.ops
        (al.logs ++ [dsLogNew ds.name bk.authorID now [versionSaveOp ds]]) al.sig :: post).find?
          (fun l => l.name == ds.peername)
        = some (Log.mk al.ops
            (al.logs ++ [dsLogNew ds.name bk.authorID now [versionSaveOp ds]]) al.sig) :=
      find?_middle _ pre _ post hprename (by rw [hal'name]; exact halname)
    simp only [autoInitBook]
    have hdsname : ((dsLogNew ds.name bk.authorID now [versionSaveOp ds]).name == ds.name) = true := by
      rw [dsLogNew_name _ _ _ _ hn]
      simp
    have hfind3 : (al.logs ++ [dsLogNew ds.name bk.authorID now [versionSaveOp ds]]).find?
          (fun c => c.name == ds.name)
        = some (dsLogNew ds.name bk.authorID now [versionSaveOp ds]) :=
      find?_middle _ al.logs _ [] hnochild hdsname
    have e1 : (autoInitBook bk pre post al ds now).logs
        = pre ++ Log.mk al.ops
            (al.logs ++ [dsLogNew ds.name bk.authorID now [versionSaveOp ds]]) al.sig :: post := rfl
    have e2 : (Log.mk al.ops
          (al.logs ++ [dsLogNew ds.name bk.authorID now [versionSaveOp ds]]) al.sig).logs
        = al.logs ++ [dsLogNew ds.name bk.authorID now [versionSaveOp ds]] := rfl
    have e3 : (dsLogNew ds.name bk.authorID now [versionSaveOp ds]).logs.find?
          (fun c => c.name == DefaultBranchName)
        = some (Log.mk [⟨OpType.init, branchModel, "", "", [], DefaultBranchName,
            bk.authorID, now, 0, ""⟩, versionSaveOp ds] [] none) := rfl
    have hhead : (autoInitBook bk pre post al ds now).headRef
          [ds.peername, ds.name, DefaultBranchName]
        = some (Log.mk [⟨OpType.init, branchModel, "", "", [], DefaultBranchName,
            bk.authorID, now, 0, ""⟩, versionSaveOp ds] [] none) := by
      simp only [Book.headRef, e1, hfind2, descend_cons, e2, hfind3, e3, descend_nil]
    have hfold : ({ authorName := bk.authorName, authorID := bk.authorID, logs := pre ++ Log.mk al.ops (al.logs ++ [dsLogNew ds.name bk.authorID now [versionSaveOp ds]]) al.sig :: post } : Book) = autoInitBook bk pre post al ds now := rfl
    simp only [Book.branchRef, refFromDataset, hbu, hbn, Bool.false_eq_true, if_false]
    rw [hfold, hhead]

/-- C8 witness for the amended statement: saving climate in alice's own
namespace auto-initializes the hierarchy and the subsequent lookup succeeds. -/
theorem writeVersionSave_autoinit_witness :
    writeVersionSave (some ⟨exBook [], []⟩) exDsClimate 5 =
      .ok ⟨autoInitBook (exBook []) [] [] (exAuthorLog []) exDsClimate 5,
        autoInitBook (exBook []) [] [] (exAuthorLog []) exDsClimate 5 :: []⟩
    ∧ (autoInitBook (exBook []) [] [] (exAuthorLog []) exDsClimate 5).branchRef
        (refFromDataset exDsClimate) =
      .ok (Log.mk [⟨OpType.init, branchModel, "", "", [], DefaultBranchName,
        (exBook []).authorID, 5, 0, ""⟩, versionSaveOp exDsClimate] [] none) :=
  writeVersionSave_autoinit [] [] (exAuthorLog []) (exBook []) [] exDsClimate 5
    rfl (by simp) rfl (by simp) rfl (by decide) (by decide) (by decide)

/-- C10: every mutating write verb called on a nil book returns ErrNoLogbook
instead of dereferencing the nil receiver. -/
theorem nil_book_errs (name newName : String) (now num rev : Int) (r : Ref)
    (ds : Dataset) (dests : List String) :
    writeNameInit none name now = .err .noLogbook
    ∧ writeNameAmend none r newName now = .err .noLogbook
    ∧ writeVersionSave none ds now = .err .noLogbook
    ∧ writeVersionAmend none ds = .err .noLogbook
    ∧ writeVersionDelete none r rev = .err .noLogbook
    ∧ writePublish none r rev dests = .err .noLogbook
    ∧ writeUnpublish none r rev dests = .err .noLogbook
    ∧ writeCronJobRan none num r = .err .noLogbook :=
  ⟨rfl, rfl, rfl, rfl, rfl, rfl, rfl, rfl⟩

end Qri
